import Mathlib

/-!
Shallow embedding of `RPyPCA9685.py`, a driver for the PCA9685 16-channel
12-bit PWM/servo IC over I2C.

Python arbitrary-precision integers are modelled by `ℤ`; bit offsets and
byte indices by `ℕ`.  Python bitwise `&`, `|`, `~` on integers are modelled
by `Int.land`, `Int.lor` and two's-complement negation `~~~`, whose
semantics on `ℤ` coincide with Python's infinite two's-complement view.
Python float arithmetic inside `int(...)` is modelled exactly over `ℚ`
(for the integer inputs considered here the float computation is exact
enough that the truncated results agree), and Python `int(x)` is
truncation toward zero.

The I2C bus is modelled by a chip register file together with an explicit
trace of bus events; each `quick2wire` `writing_bytes` message becomes one
`Event.write` carrying the list of data bytes sent after the register
address, each `reading` message one `Event.read`, and each `time.sleep`
one `Event.sleepMs`.
-/

namespace RPyPCA9685

/-- Python `testBit(int_type, offset)`: returns `int_type & (1 << offset)`
(non-zero exactly when the bit is set). -/
def testBit (int_type : ℤ) (offset : ℕ) : ℤ :=
  Int.land int_type ((1 : ℤ) <<< (offset : ℤ))

/-- Python `_setBit(int_type, offset)`: returns `int_type | (1 << offset)`. -/
def _setBit (int_type : ℤ) (offset : ℕ) : ℤ :=
  Int.lor int_type ((1 : ℤ) <<< (offset : ℤ))

/-- Python `_clearBit(int_type, offset)`: returns `int_type & ~(1 << offset)`. -/
def _clearBit (int_type : ℤ) (offset : ℕ) : ℤ :=
  Int.land int_type (~~~((1 : ℤ) <<< (offset : ℤ)))

/-- Python `getByte(int_type, nth_byte)`: returns
`(int_type >> (8 * nth_byte)) & 0xff`. -/
def getByte (int_type : ℤ) (nth_byte : ℕ) : ℤ :=
  Int.land (int_type >>> (8 * nth_byte)) 0xff

/-- Python `int(x)` applied to an exact rational value:
truncation toward zero. -/
def pyInt (q : ℚ) : ℤ := q.num.tdiv q.den

/-- The two distinct `Exception`s the driver raises: one from
`_valid_servo` (channel out of `[0, 15]`) and one from the position check
in `set_position`. -/
inductive PCAError where
  | invalidChannel
  | invalidPosition
deriving DecidableEq

/-- One observable I2C bus event. -/
inductive Event where
  /-- A `writing_bytes(ADDRESS, reg, data...)` message: the register
  address followed by the data bytes sent. -/
  | write (reg : ℤ) (data : List ℤ)
  /-- A `reading(ADDRESS, count)` message, here always preceded by a
  write selecting `reg`. -/
  | read (reg : ℤ) (count : ℕ)
  /-- A `time.sleep` of the given number of milliseconds. -/
  | sleepMs (ms : ℕ)
  /-- `master.close()`. -/
  | closeBus
deriving DecidableEq

/-- The chip's register file: the byte value last stored at each register
address. -/
structure I2CState where
  regs : ℤ → ℤ

namespace PCA9685

def _PRESCALE : ℤ := 121

def _PULSE_START : ℤ := 100

def _PULSE_END_LOW : ℤ := 305

def _PULSE_END_HIGH : ℤ := 509

/-- Python `REGISTERS(self)`: the register-address dictionary
(`dict.get` returns `none` on a missing key). -/
def REGISTERS : String → Option ℤ
  | "mode1" => some 0x00
  | "mode2" => some 0x01
  | "subadr1" => some 0x02
  | "subadr2" => some 0x03
  | "subadr3" => some 0x04
  | "allcalladr" => some 0x05
  | "all_on_low" => some 0xfa
  | "all_on_high" => some 0xfb
  | "all_off_low" => some 0xfc
  | "all_off_high" => some 0xfd
  | "pre_scale" => some 0xfe
  | "testmode" => some 0xff
  | _ => none

/-- Python `MODE1_BITS(self)`: bit offsets of the mode1 register. -/
def MODE1_BITS : String → Option ℕ
  | "allcall" => some 0
  | "sub3" => some 1
  | "sub2" => some 2
  | "sub1" => some 3
  | "sleep" => some 4
  | "ai" => some 5
  | "extclk" => some 6
  | "restart" => some 7
  | _ => none

/-- Python `MODE2_BITS(self)`: bit offsets of the mode2 register. -/
def MODE2_BITS : String → Option ℕ
  | "oe0" => some 0
  | "oe1" => some 1
  | "outdrv" => some 2
  | "och" => some 3
  | "invrt" => some 4
  | _ => none

/-- Python `_valid_servo(self, servo_id)`: raises unless
`servo_id >= 0 and servo_id <= 15`. -/
def _valid_servo (servo_id : ℤ) : Except PCAError Unit :=
  if ¬(servo_id ≥ 0 ∧ servo_id ≤ 15) then .error .invalidChannel else .ok ()

/-- Python `SERVO_ON_LOW(self, servo_id)`: `0x06 + 4 * servo_id` after
validation. -/
def SERVO_ON_LOW (servo_id : ℤ) : Except PCAError ℤ := do
  _valid_servo servo_id
  return 0x06 + 4 * servo_id

/-- Python `SERVO_ON_HIGH(self, servo_id)`: `0x07 + 4 * servo_id` after
validation. -/
def SERVO_ON_HIGH (servo_id : ℤ) : Except PCAError ℤ := do
  _valid_servo servo_id
  return 0x07 + 4 * servo_id

/-- Python `SERVO_OFF_LOW(self, servo_id)`: `0x08 + 4 * servo_id` after
validation. -/
def SERVO_OFF_LOW (servo_id : ℤ) : Except PCAError ℤ := do
  _valid_servo servo_id
  return 0x08 + 4 * servo_id

/-- Python `SERVO_OFF_HIGH(self, servo_id)`: `0x09 + 4 * servo_id` after
validation. -/
def SERVO_OFF_HIGH (servo_id : ℤ) : Except PCAError ℤ := do
  _valid_servo servo_id
  return 0x09 + 4 * servo_id

/-- Python `_setRegister(self, register, value)`: one transaction with a
single `writing_bytes(ADDRESS, register, getByte(value, 0))` message; the
chip stores the written byte at `register`. -/
def _setRegister (st : I2CState) (register : ℤ) (value : ℤ) :
    I2CState × List Event :=
  (⟨Function.update st.regs register (getByte value 0)⟩,
   [.write register [getByte value 0]])

/-- Python `_getRegister(self, register)`: one transaction of a write
message selecting `register` followed by a one-byte read; returns the
chip's current byte at `register` and the bus events. -/
def _getRegister (st : I2CState) (register : ℤ) : ℤ × List Event :=
  (st.regs register, [.write register [], .read register 1])

/-- Python method `_getBit(self, register, bit)`. -/
def _getBit (st : I2CState) (register : ℤ) (bit : ℕ) : ℤ × List Event :=
  let r := _getRegister st register
  (RPyPCA9685.testBit r.1 bit, r.2)

/-- Python method `_setBit(self, register, bit)`: read-modify-write. -/
def _setBit (st : I2CState) (register : ℤ) (bit : ℕ) :
    I2CState × List Event :=
  let r := _getRegister st register
  let w := _setRegister st register (RPyPCA9685._setBit r.1 bit)
  (w.1, r.2 ++ w.2)

/-- Python method `_clearBit(self, register, bit)`: read-modify-write. -/
def _clearBit (st : I2CState) (register : ℤ) (bit : ℕ) :
    I2CState × List Event :=
  let r := _getRegister st register
  let w := _setRegister st register (RPyPCA9685._clearBit r.1 bit)
  (w.1, r.2 ++ w.2)

/-- The off-tick `set_position` computes:
`int((position - 1000) / (2000 - 1000) * (_PULSE_END_HIGH - _PULSE_END_LOW) + _PULSE_END_LOW)`. -/
def tickOf (position : ℤ) : ℤ :=
  pyInt (((position : ℚ) - 1000) / ((2000 : ℚ) - 1000)
    * ((_PULSE_END_HIGH : ℚ) - (_PULSE_END_LOW : ℚ)) + (_PULSE_END_LOW : ℚ))

/-- Python `set_position(self, servo_id, position)`: validates the
channel, then the position, computes the tick and issues one transaction
of two single-byte write messages to the channel's off_low and off_high
registers. -/
def set_position (st : I2CState) (servo_id : ℤ) (position : ℤ) :
    Except PCAError (I2CState × List Event) := do
  _valid_servo servo_id
  if ¬(position > 0 ∧ position < 3000) then throw .invalidPosition
  else
    let value := tickOf position
    let rl ← SERVO_OFF_LOW servo_id
    let rh ← SERVO_OFF_HIGH servo_id
    return (⟨Function.update (Function.update st.regs rl (getByte value 0))
              rh (getByte value 1)⟩,
            [.write rl [getByte value 0], .write rh [getByte value 1]])

/-- Python `__init__(self, controller, address)` after the `I2CMaster`
is created: the register initialisation sequence.  Returns the final chip
state and the full bus trace. -/
def __init__ (st : I2CState) : I2CState × List Event :=
  let s1 := _setRegister st ((REGISTERS "pre_scale").getD 0) _PRESCALE
  let s2 := _clearBit s1.1 ((REGISTERS "mode1").getD 0)
              ((MODE1_BITS "allcall").getD 0)
  let s3 := _setRegister s2.1 ((REGISTERS "all_on_low").getD 0)
              (getByte _PULSE_START 0)
  let s4 := _setRegister s3.1 ((REGISTERS "all_on_high").getD 0)
              (getByte _PULSE_START 1)
  let center : ℤ := pyInt (((_PULSE_END_HIGH : ℚ) + (_PULSE_END_LOW : ℚ)) / 2)
  let s5 := _setRegister s4.1 ((REGISTERS "all_off_low").getD 0)
              (getByte center 0)
  let s6 := _setRegister s5.1 ((REGISTERS "all_off_high").getD 0)
              (getByte center 1)
  let s7 := _clearBit s6.1 ((REGISTERS "mode1").getD 0)
              ((MODE1_BITS "sleep").getD 0)
  let s8 := _setBit s7.1 ((REGISTERS "mode1").getD 0)
              ((MODE1_BITS "restart").getD 0)
  (s8.1, s1.2 ++ s2.2 ++ s3.2 ++ s4.2 ++ s5.2 ++ s6.2 ++ s7.2
    ++ [.sleepMs 100] ++ s8.2 ++ [.sleepMs 100])

/-- Python `__del__(self)`: sets the sleep bit of mode1 by
read-modify-write, then closes the bus. -/
def __del__ (st : I2CState) : I2CState × List Event :=
  let s := _setBit st ((REGISTERS "mode1").getD 0) ((MODE1_BITS "sleep").getD 0)
  (s.1, s.2 ++ [.closeBus])

end PCA9685

/-- Spec-side definition, for comparison with the code (claim C1): the
spec's claimed mapping
`tick = round(PULSE_END_LOW + (position − 1000) / 1000 × (PULSE_END_HIGH − PULSE_END_LOW))`,
with `round` rounding to the nearest integer.  The code instead applies
Python `int(...)`, i.e. truncation. -/
def roundTickSpec (position : ℤ) : ℤ :=
  round ((PCA9685._PULSE_END_LOW : ℚ)
    + ((position : ℚ) - 1000) / 1000
    * ((PCA9685._PULSE_END_HIGH : ℚ) - (PCA9685._PULSE_END_LOW : ℚ)))

end RPyPCA9685

namespace RPyPCA9685

theorem land_coe (n k : ℕ) :
    Int.land (n : ℤ) (k : ℤ) = ((n &&& k : ℕ) : ℤ) := rfl

theorem ldiff_coe (n k : ℕ) :
    Int.land (n : ℤ) (~~~(k : ℤ)) = ((Nat.ldiff n k : ℕ) : ℤ) := rfl

theorem lor_coe (n k : ℕ) :
    Int.lor (n : ℤ) (k : ℤ) = ((n ||| k : ℕ) : ℤ) := rfl

theorem testBit_coe (n o : ℕ) :
    testBit (n : ℤ) o = ((n &&& 2 ^ o : ℕ) : ℤ) := by
  rw [testBit, Int.one_shiftLeft]
  exact rfl

theorem setBit_coe (n o : ℕ) :
    _setBit (n : ℤ) o = ((n ||| 2 ^ o : ℕ) : ℤ) := by
  rw [_setBit, Int.one_shiftLeft]
  exact rfl

theorem clearBit_coe (n o : ℕ) :
    _clearBit (n : ℤ) o = ((Nat.ldiff n (2 ^ o) : ℕ) : ℤ) := by
  rw [_clearBit, Int.one_shiftLeft]
  exact rfl

theorem getByte_coe (m k : ℕ) :
    getByte (m : ℤ) k = ((m / 2 ^ (8 * k) % 2 ^ 8 : ℕ) : ℤ) := by
  rw [getByte]
  have h1 : ((m : ℤ) >>> (8 * k)) = ((m >>> (8 * k) : ℕ) : ℤ) := rfl
  rw [h1]
  have h2 : Int.land ((m >>> (8 * k) : ℕ) : ℤ) 0xff
      = (((m >>> (8 * k)) &&& 0xff : ℕ) : ℤ) := rfl
  rw [h2]
  have h3 : (m >>> (8 * k)) &&& 0xff = m / 2 ^ (8 * k) % 2 ^ 8 := by
    rw [Nat.shiftRight_eq_div_pow]
    exact Nat.and_pow_two_sub_one_eq_mod _ 8
  rw [h3]

/-- C7: for every `v` in `[0, 2^32)` and `n` in `{0,1,2,3}`, `getByte v n`
is `(v >> 8n) & 0xff`, and the four extracted bytes reassemble to
`v & 0xffffffff`, which equals `v` itself. -/
theorem getByte_roundtrip : ∀ v : ℤ, 0 ≤ v → v < 2 ^ 32 →
    (∀ k : ℕ, k < 4 → getByte v k = Int.land (v >>> (8 * k)) 0xff)
    ∧ getByte v 0 + (getByte v 1) <<< ((8 : ℕ) : ℤ)
        + (getByte v 2) <<< ((16 : ℕ) : ℤ) + (getByte v 3) <<< ((24 : ℕ) : ℤ)
      = Int.land v 0xffffffff
    ∧ Int.land v 0xffffffff = v := by
  intro v hv hlt
  obtain ⟨m, rfl⟩ := Int.eq_ofNat_of_zero_le hv
  have hm : m < 2 ^ 32 := by exact_mod_cast hlt
  refine ⟨fun k _ => rfl, ?_, ?_⟩
  · rw [getByte_coe, getByte_coe, getByte_coe, getByte_coe,
      Int.shiftLeft_coe_nat, Int.shiftLeft_coe_nat, Int.shiftLeft_coe_nat]
    have hff : (0xffffffff : ℤ) = ((0xffffffff : ℕ) : ℤ) := rfl
    rw [hff, land_coe]
    have keyN : m / 2 ^ (8 * 0) % 2 ^ 8 + (m / 2 ^ (8 * 1) % 2 ^ 8) <<< 8
        + (m / 2 ^ (8 * 2) % 2 ^ 8) <<< 16 + (m / 2 ^ (8 * 3) % 2 ^ 8) <<< 24
        = m &&& 0xffffffff := by
      have h4 : m &&& 0xffffffff = m % 2 ^ 32 := by
        have h5 : (0xffffffff : ℕ) = 2 ^ 32 - 1 := by norm_num
        rw [h5]
        exact Nat.and_pow_two_sub_one_eq_mod m 32
      rw [h4, Nat.shiftLeft_eq, Nat.shiftLeft_eq, Nat.shiftLeft_eq]
      have e0 : (2 : ℕ) ^ (8 * 0) = 1 := by norm_num
      have e1 : (2 : ℕ) ^ (8 * 1) = 256 := by norm_num
      have e2 : (2 : ℕ) ^ (8 * 2) = 65536 := by norm_num
      have e3 : (2 : ℕ) ^ (8 * 3) = 16777216 := by norm_num
      have e32 : (2 : ℕ) ^ 32 = 4294967296 := by norm_num
      rw [e0, e1, e2, e3, e32]
      omega
    exact_mod_cast keyN
  · have hff : (0xffffffff : ℤ) = ((0xffffffff : ℕ) : ℤ) := rfl
    rw [hff, land_coe]
    have h4 : m &&& 0xffffffff = m % 2 ^ 32 := by
      have : (0xffffffff : ℕ) = 2 ^ 32 - 1 := by norm_num
      rw [this]
      exact Nat.and_pow_two_sub_one_eq_mod m 32
    rw [h4, Nat.mod_eq_of_lt hm]

end RPyPCA9685

namespace RPyPCA9685

/-- C8: for every non-negative `v` and offset `o ≤ 7`, `testBit` reports
bit `o` set after `_setBit`, clear after `_clearBit`, and both operations
leave every bit other than `o` unchanged. -/
theorem bit_ops_spec : ∀ v : ℤ, 0 ≤ v → ∀ o : ℕ, o ≤ 7 →
    testBit (_setBit v o) o ≠ 0
    ∧ testBit (_clearBit v o) o = 0
    ∧ (∀ i : ℕ, i ≠ o → testBit (_setBit v o) i = testBit v i)
    ∧ (∀ i : ℕ, i ≠ o → testBit (_clearBit v o) i = testBit v i) := by
  intro v hv o _
  obtain ⟨n, rfl⟩ := Int.eq_ofNat_of_zero_le hv
  refine ⟨?_, ?_, ?_, ?_⟩
  · rw [setBit_coe, testBit_coe, Nat.and_two_pow]
    simp [Nat.testBit_lor, Nat.testBit_two_pow_self]
  · rw [clearBit_coe, testBit_coe, Nat.and_two_pow]
    simp [Nat.testBit_ldiff, Nat.testBit_two_pow_self]
  · intro i hi
    rw [setBit_coe, testBit_coe, testBit_coe, Nat.and_two_pow, Nat.and_two_pow]
    simp [Nat.testBit_lor, Nat.testBit_two_pow_of_ne (Ne.symm hi)]
  · intro i hi
    rw [clearBit_coe, testBit_coe, testBit_coe, Nat.and_two_pow, Nat.and_two_pow]
    simp [Nat.testBit_ldiff, Nat.testBit_two_pow_of_ne (Ne.symm hi)]

/-- Witness for C8 at `v = 5`, `o = 1`, other bit `i = 0`. -/
theorem bit_ops_spec_witness :
    testBit (_setBit 5 1) 1 ≠ 0
    ∧ testBit (_clearBit 5 1) 1 = 0
    ∧ testBit (_setBit 5 1) 0 = testBit 5 0
    ∧ testBit (_clearBit 5 1) 0 = testBit 5 0 :=
  ⟨(bit_ops_spec 5 (by decide) 1 (by decide)).1,
   (bit_ops_spec 5 (by decide) 1 (by decide)).2.1,
   (bit_ops_spec 5 (by decide) 1 (by decide)).2.2.1 0 (by decide),
   (bit_ops_spec 5 (by decide) 1 (by decide)).2.2.2 0 (by decide)⟩

end RPyPCA9685

namespace RPyPCA9685

theorem pyInt_intCast (n : ℤ) : pyInt ((n : ℤ) : ℚ) = n := by
  rw [pyInt, Rat.num_intCast, Rat.den_intCast]
  simp [Int.tdiv_one]

theorem pyInt_eq_floor (q : ℚ) (h : 0 ≤ q) : pyInt q = ⌊q⌋ := by
  rw [pyInt, Int.tdiv_eq_ediv (Rat.num_nonneg.mpr h) (by positivity)]
  conv_rhs => rw [← Rat.num_div_den q]
  rw [Rat.floor_intCast_div_natCast]

theorem tick_formula_eq (p : ℤ) :
    ((p : ℚ) - 1000) / ((2000 : ℚ) - 1000)
      * ((PCA9685._PULSE_END_HIGH : ℚ) - (PCA9685._PULSE_END_LOW : ℚ))
      + (PCA9685._PULSE_END_LOW : ℚ)
    = ((204 * p + 101000 : ℤ) : ℚ) / ((1000 : ℕ) : ℚ) := by
  simp only [PCA9685._PULSE_END_HIGH, PCA9685._PULSE_END_LOW]
  push_cast
  ring

theorem tickOf_eq (p : ℤ) (hp : 0 < p) :
    PCA9685.tickOf p = (204 * p + 101000) / 1000 := by
  have h0 : (0 : ℚ) ≤ ((204 * p + 101000 : ℤ) : ℚ) / ((1000 : ℕ) : ℚ) := by
    apply div_nonneg
    · exact_mod_cast (by omega : (0 : ℤ) ≤ 204 * p + 101000)
    · norm_num
  rw [PCA9685.tickOf, tick_formula_eq, pyInt_eq_floor _ h0,
    Rat.floor_intCast_div_natCast]
  norm_num

theorem floor_claim_formula (p : ℤ) :
    ⌊(PCA9685._PULSE_END_LOW : ℚ) + ((p : ℚ) - 1000) / 1000
        * ((PCA9685._PULSE_END_HIGH : ℚ) - (PCA9685._PULSE_END_LOW : ℚ))⌋
      = (204 * p + 101000) / 1000 := by
  have h : (PCA9685._PULSE_END_LOW : ℚ) + ((p : ℚ) - 1000) / 1000
        * ((PCA9685._PULSE_END_HIGH : ℚ) - (PCA9685._PULSE_END_LOW : ℚ))
      = ((204 * p + 101000 : ℤ) : ℚ) / ((1000 : ℕ) : ℚ) := by
    simp only [PCA9685._PULSE_END_HIGH, PCA9685._PULSE_END_LOW]
    push_cast
    ring
  rw [h, Rat.floor_intCast_div_natCast]
  norm_num

theorem set_position_ok (st : I2CState) (c p : ℤ)
    (hc0 : 0 ≤ c) (hc15 : c ≤ 15) (hp0 : 0 < p) (hp3 : p < 3000) :
    PCA9685.set_position st c p = .ok
      (⟨Function.update (Function.update st.regs (0x08 + 4 * c)
          (getByte (PCA9685.tickOf p) 0)) (0x09 + 4 * c)
          (getByte (PCA9685.tickOf p) 1)⟩,
       [.write (0x08 + 4 * c) [getByte (PCA9685.tickOf p) 0],
        .write (0x09 + 4 * c) [getByte (PCA9685.tickOf p) 1]]) := by
  simp [PCA9685.set_position, PCA9685._valid_servo, PCA9685.SERVO_OFF_LOW,
    PCA9685.SERVO_OFF_HIGH, hc0, hc15, hp0, hp3, Bind.bind, Except.bind,
    Except.instMonad, Pure.pure, Except.pure]

/-- C1 (amended): for a valid channel and `0 < position < 3000`,
`set_position` writes the bytes of a tick computed by truncation (here
`⌊·⌋`, the value being non-negative) of
`PULSE_END_LOW + (position − 1000)/1000 × (PULSE_END_HIGH − PULSE_END_LOW)`;
position 1000 gives 305, 2000 gives 509, 1500 gives 407, and positions
outside `[1000, 2000]` extrapolate linearly without clamping
(500 gives 203 < 305, 2999 gives 712 > 509). -/
theorem set_position_tick_map : ∀ (st : I2CState) (c p : ℤ),
    0 ≤ c → c ≤ 15 → 0 < p → p < 3000 →
    (∃ st', PCA9685.set_position st c p = .ok (st',
      [.write (0x08 + 4 * c) [getByte (PCA9685.tickOf p) 0],
       .write (0x09 + 4 * c) [getByte (PCA9685.tickOf p) 1]]))
    ∧ PCA9685.tickOf p = ⌊(PCA9685._PULSE_END_LOW : ℚ) + ((p : ℚ) - 1000) / 1000
        * ((PCA9685._PULSE_END_HIGH : ℚ) - (PCA9685._PULSE_END_LOW : ℚ))⌋
    ∧ PCA9685.tickOf 1000 = 305 ∧ PCA9685.tickOf 2000 = 509
    ∧ PCA9685.tickOf 1500 = 407
    ∧ PCA9685.tickOf 2999 = 712 ∧ PCA9685.tickOf 500 = 203 := by
  intro st c p hc0 hc15 hp0 hp3
  refine ⟨⟨_, set_position_ok st c p hc0 hc15 hp0 hp3⟩, ?_, ?_, ?_, ?_, ?_, ?_⟩
  · rw [tickOf_eq p hp0, floor_claim_formula]
  · rw [tickOf_eq 1000 (by norm_num)]; decide
  · rw [tickOf_eq 2000 (by norm_num)]; decide
  · rw [tickOf_eq 1500 (by norm_num)]; decide
  · rw [tickOf_eq 2999 (by norm_num)]; decide
  · rw [tickOf_eq 500 (by norm_num)]; decide

/-- Witness for C1 at `st = 0`, channel 0, position 1500. -/
theorem set_position_tick_map_witness :
    PCA9685.tickOf 1500 = 407 ∧ PCA9685.tickOf 1000 = 305 :=
  ⟨(set_position_tick_map ⟨fun _ => 0⟩ 0 1500 (by decide) (by decide)
      (by decide) (by decide)).2.2.2.2.1,
   (set_position_tick_map ⟨fun _ => 0⟩ 0 1500 (by decide) (by decide)
      (by decide) (by decide)).2.2.1⟩

/-- Counterexample to C1 as stated: at position 1999 the code's tick is
508 while the claimed `round` formula gives 509. -/
theorem set_position_round_cex :
    PCA9685.tickOf 1999 = 508 ∧ roundTickSpec 1999 = 509
    ∧ PCA9685.tickOf 1999 ≠ roundTickSpec 1999 := by
  have h1 : PCA9685.tickOf 1999 = 508 := by
    rw [tickOf_eq 1999 (by norm_num)]; decide
  have h2 : roundTickSpec 1999 = 509 := by
    rw [roundTickSpec, round_eq]
    have h : (PCA9685._PULSE_END_LOW : ℚ) + (((1999 : ℤ) : ℚ) - 1000) / 1000
          * ((PCA9685._PULSE_END_HIGH : ℚ) - (PCA9685._PULSE_END_LOW : ℚ)) + 1 / 2
        = ((509296 : ℤ) : ℚ) / ((1000 : ℕ) : ℚ) := by
      simp only [PCA9685._PULSE_END_HIGH, PCA9685._PULSE_END_LOW]
      push_cast
      norm_num
    rw [h, Rat.floor_intCast_div_natCast]
    decide
  exact ⟨h1, h2, by rw [h1, h2]; decide⟩

end RPyPCA9685

namespace RPyPCA9685

/-- C10: for every position in `(0, 3000)` the computed tick lies in
`[101, 712]`, hence fits in 12 bits, and the byte written to the off_high
register has its upper four bits zero. -/
theorem tick_invariant : ∀ p : ℤ, 0 < p → p < 3000 →
    101 ≤ PCA9685.tickOf p ∧ PCA9685.tickOf p ≤ 712
    ∧ PCA9685.tickOf p < 4096
    ∧ 0 ≤ getByte (PCA9685.tickOf p) 1 ∧ getByte (PCA9685.tickOf p) 1 < 16 := by
  intro p hp0 hp3
  have ht := tickOf_eq p hp0
  have h101 : 101 ≤ PCA9685.tickOf p := by
    rw [ht, Int.le_ediv_iff_mul_le (by norm_num)]
    omega
  have h712 : PCA9685.tickOf p ≤ 712 := by
    rw [ht]
    have h := (Int.ediv_lt_iff_lt_mul
      (a := 204 * p + 101000) (b := 713) (c := 1000) (by norm_num)).mpr (by omega)
    omega
  obtain ⟨n, hn⟩ := Int.eq_ofNat_of_zero_le
    (le_trans (by norm_num : (0 : ℤ) ≤ 101) h101)
  have hn712 : n ≤ 712 := by
    have := hn ▸ h712
    exact_mod_cast this
  refine ⟨h101, h712, by omega, ?_, ?_⟩
  · rw [hn, getByte_coe]
    positivity
  · rw [hn, getByte_coe]
    have hb : n / 2 ^ (8 * 1) % 2 ^ 8 < 16 := by
      clear ht h101 h712 hn hp0 hp3
      have e1 : (2 : ℕ) ^ (8 * 1) = 256 := by norm_num
      rw [e1]
      omega
    exact_mod_cast hb

/-- Witness for C10 at position 1. -/
theorem tick_invariant_witness :
    101 ≤ PCA9685.tickOf 1 ∧ PCA9685.tickOf 1 ≤ 712
    ∧ PCA9685.tickOf 1 < 4096
    ∧ 0 ≤ getByte (PCA9685.tickOf 1) 1 ∧ getByte (PCA9685.tickOf 1) 1 < 16 :=
  tick_invariant 1 (by decide) (by decide)

/-- C3: `set_position` rejects a channel outside `[0, 15]` with
InvalidChannel (for any position), and a valid channel with a position
not strictly between 0 and 3000 with InvalidPosition; in both cases it
returns the error without any bus event or state change (the error
result carries neither). -/
theorem set_position_validation : ∀ (st : I2CState) (c p : ℤ),
    (¬(c ≥ 0 ∧ c ≤ 15) →
      PCA9685.set_position st c p = .error .invalidChannel)
    ∧ ((c ≥ 0 ∧ c ≤ 15) → ¬(p > 0 ∧ p < 3000) →
      PCA9685.set_position st c p = .error .invalidPosition) := by
  intro st c p
  constructor
  · intro h
    simp [PCA9685.set_position, PCA9685._valid_servo, h,
      Bind.bind, Except.bind]
  · intro hc hp
    simp [PCA9685.set_position, PCA9685._valid_servo, hc.1, hc.2, hp,
      Bind.bind, Except.bind, throw, throwThe, MonadExceptOf.throw]

/-- Witness for C3: channel 16 is rejected as InvalidChannel; channel 0
with position 3000 is rejected as InvalidPosition. -/
theorem set_position_validation_witness :
    PCA9685.set_position ⟨fun _ => 0⟩ 16 1500 = .error .invalidChannel
    ∧ PCA9685.set_position ⟨fun _ => 0⟩ 0 3000 = .error .invalidPosition :=
  ⟨(set_position_validation ⟨fun _ => 0⟩ 16 1500).1 (by decide),
   (set_position_validation ⟨fun _ => 0⟩ 0 3000).2 (by decide) (by decide)⟩

/-- C4: for a channel in `[0, 15]` the four register-address functions
return `0x06/0x07/0x08/0x09 + 4·c` (so consecutive channels differ by 4),
and outside `[0, 15]` all four fail with InvalidChannel. -/
theorem servo_registers_spec : ∀ c : ℤ,
    ((c ≥ 0 ∧ c ≤ 15) →
      PCA9685.SERVO_ON_LOW c = .ok (0x06 + 4 * c)
      ∧ PCA9685.SERVO_ON_HIGH c = .ok (0x07 + 4 * c)
      ∧ PCA9685.SERVO_OFF_LOW c = .ok (0x08 + 4 * c)
      ∧ PCA9685.SERVO_OFF_HIGH c = .ok (0x09 + 4 * c))
    ∧ ((c ≥ 0 ∧ c ≤ 14) →
      PCA9685.SERVO_ON_LOW (c + 1) = .ok ((0x06 + 4 * c) + 4)
      ∧ PCA9685.SERVO_ON_HIGH (c + 1) = .ok ((0x07 + 4 * c) + 4)
      ∧ PCA9685.SERVO_OFF_LOW (c + 1) = .ok ((0x08 + 4 * c) + 4)
      ∧ PCA9685.SERVO_OFF_HIGH (c + 1) = .ok ((0x09 + 4 * c) + 4))
    ∧ (¬(c ≥ 0 ∧ c ≤ 15) →
      PCA9685.SERVO_ON_LOW c = .error .invalidChannel
      ∧ PCA9685.SERVO_ON_HIGH c = .error .invalidChannel
      ∧ PCA9685.SERVO_OFF_LOW c = .error .invalidChannel
      ∧ PCA9685.SERVO_OFF_HIGH c = .error .invalidChannel) := by
  intro c
  refine ⟨fun h => ?_, fun h => ?_, fun h => ?_⟩
  · refine ⟨?_, ?_, ?_, ?_⟩ <;>
      simp [PCA9685.SERVO_ON_LOW, PCA9685.SERVO_ON_HIGH,
        PCA9685.SERVO_OFF_LOW, PCA9685.SERVO_OFF_HIGH,
        PCA9685._valid_servo, h.1, h.2, Bind.bind, Except.bind,
        Pure.pure, Except.pure]
  · have h1 : c + 1 ≥ 0 := by omega
    have h2 : c + 1 ≤ 15 := by omega
    refine ⟨?_, ?_, ?_, ?_⟩ <;>
      · simp [PCA9685.SERVO_ON_LOW, PCA9685.SERVO_ON_HIGH,
          PCA9685.SERVO_OFF_LOW, PCA9685.SERVO_OFF_HIGH,
          PCA9685._valid_servo, h1, h2, Bind.bind, Except.bind,
          Pure.pure, Except.pure]
        ring
  · refine ⟨?_, ?_, ?_, ?_⟩ <;>
      simp [PCA9685.SERVO_ON_LOW, PCA9685.SERVO_ON_HIGH,
        PCA9685.SERVO_OFF_LOW, PCA9685.SERVO_OFF_HIGH,
        PCA9685._valid_servo, h, Bind.bind, Except.bind]

/-- Witness for C4 at channels 3, 3+1 and 16. -/
theorem servo_registers_spec_witness :
    PCA9685.SERVO_ON_LOW 3 = .ok 0x12
    ∧ PCA9685.SERVO_OFF_HIGH 4 = .ok ((0x09 + 4 * 3) + 4)
    ∧ PCA9685.SERVO_ON_LOW 16 = .error .invalidChannel :=
  ⟨by have h := ((servo_registers_spec 3).1 (by decide)).1; simpa using h,
   ((servo_registers_spec 3).2.1 (by decide)).2.2.2,
   ((servo_registers_spec 16).2.2 (by decide)).1⟩

end RPyPCA9685

namespace RPyPCA9685

/-- C5: a successful `set_position` issues exactly two single-byte write
messages, the tick's low byte to the channel's off_low register and its
high byte to off_high; the channel's on_low/on_high registers and every
other register are unchanged. -/
theorem set_position_frame : ∀ (st : I2CState) (c p : ℤ),
    0 ≤ c → c ≤ 15 → 0 < p → p < 3000 →
    ∃ st', PCA9685.set_position st c p = .ok (st',
        [.write (0x08 + 4 * c) [getByte (PCA9685.tickOf p) 0],
         .write (0x09 + 4 * c) [getByte (PCA9685.tickOf p) 1]])
      ∧ st'.regs (0x08 + 4 * c) = getByte (PCA9685.tickOf p) 0
      ∧ st'.regs (0x09 + 4 * c) = getByte (PCA9685.tickOf p) 1
      ∧ st'.regs (0x06 + 4 * c) = st.regs (0x06 + 4 * c)
      ∧ st'.regs (0x07 + 4 * c) = st.regs (0x07 + 4 * c)
      ∧ (∀ r : ℤ, r ≠ 0x08 + 4 * c → r ≠ 0x09 + 4 * c →
          st'.regs r = st.regs r) := by
  intro st c p hc0 hc15 hp0 hp3
  refine ⟨_, set_position_ok st c p hc0 hc15 hp0 hp3, ?_, ?_, ?_, ?_, ?_⟩ <;>
    dsimp only
  · rw [Function.update_noteq (by omega), Function.update_same]
  · rw [Function.update_same]
  · rw [Function.update_noteq (by omega), Function.update_noteq (by omega)]
  · rw [Function.update_noteq (by omega), Function.update_noteq (by omega)]
  · intro r h8 h9
    rw [Function.update_noteq h9, Function.update_noteq h8]

/-- Witness for C5 at `st = 0`, channel 0, position 1500. -/
theorem set_position_frame_witness :
    ∃ st', PCA9685.set_position ⟨fun _ => 0⟩ 0 1500 = .ok (st',
        [.write (0x08 + 4 * 0) [getByte (PCA9685.tickOf 1500) 0],
         .write (0x09 + 4 * 0) [getByte (PCA9685.tickOf 1500) 1]])
      ∧ st'.regs (0x08 + 4 * 0) = getByte (PCA9685.tickOf 1500) 0
      ∧ st'.regs (0x09 + 4 * 0) = getByte (PCA9685.tickOf 1500) 1
      ∧ st'.regs (0x06 + 4 * 0) = (0 : ℤ)
      ∧ st'.regs (0x07 + 4 * 0) = (0 : ℤ)
      ∧ (∀ r : ℤ, r ≠ 0x08 + 4 * 0 → r ≠ 0x09 + 4 * 0 →
          st'.regs r = (0 : ℤ)) :=
  set_position_frame ⟨fun _ => 0⟩ 0 1500 (by decide) (by decide)
    (by decide) (by decide)

/-- C9: the two write messages of a successful `set_position` depend only
on the arguments, not on the chip state: calls from any two states (in
particular an immediate repetition) produce the identical trace. -/
theorem set_position_deterministic : ∀ (st₁ st₂ : I2CState) (c p : ℤ),
    0 ≤ c → c ≤ 15 → 0 < p → p < 3000 →
    ∃ st₁' st₂' tr, PCA9685.set_position st₁ c p = .ok (st₁', tr)
      ∧ PCA9685.set_position st₂ c p = .ok (st₂', tr) := by
  intro st₁ st₂ c p hc0 hc15 hp0 hp3
  exact ⟨_, _, _, set_position_ok st₁ c p hc0 hc15 hp0 hp3,
    set_position_ok st₂ c p hc0 hc15 hp0 hp3⟩

/-- Witness for C9: a repeated call at channel 0, position 1500 from the
state left by the first call. -/
theorem set_position_deterministic_witness :
    ∃ st₁' st₂' tr,
      PCA9685.set_position ⟨fun _ => 0⟩ 0 1500 = .ok (st₁', tr)
      ∧ PCA9685.set_position ⟨Function.update (Function.update
          (fun _ => (0 : ℤ)) (0x08 + 4 * 0) (getByte (PCA9685.tickOf 1500) 0))
          (0x09 + 4 * 0) (getByte (PCA9685.tickOf 1500) 1)⟩ 0 1500
        = .ok (st₂', tr) :=
  set_position_deterministic ⟨fun _ => 0⟩
    ⟨Function.update (Function.update (fun _ => (0 : ℤ)) (0x08 + 4 * 0)
        (getByte (PCA9685.tickOf 1500) 0)) (0x09 + 4 * 0)
        (getByte (PCA9685.tickOf 1500) 1)⟩
    0 1500 (by decide) (by decide) (by decide) (by decide)

end RPyPCA9685

namespace RPyPCA9685

theorem center_eq :
    pyInt (((PCA9685._PULSE_END_HIGH : ℚ) + (PCA9685._PULSE_END_LOW : ℚ)) / 2)
      = 407 := by
  have h : ((PCA9685._PULSE_END_HIGH : ℚ) + (PCA9685._PULSE_END_LOW : ℚ)) / 2
      = ((407 : ℤ) : ℚ) := by
    simp only [PCA9685._PULSE_END_HIGH, PCA9685._PULSE_END_LOW]
    norm_num
  rw [h, pyInt_intCast]

/-- C2: on any initial chip state, construction performs exactly the
six-step register sequence in order - prescale 121, clear allcall (bit 0)
of mode1 by read-modify-write, pulse start 100/0 into all_on_low/high,
the midpoint 407 as bytes 151/1 into all_off_low/high, clear sleep
(bit 4) of mode1 then a 100 ms delay, set restart (bit 7) of mode1 then
another 100 ms delay - with no other bus traffic. -/
theorem __init___trace : ∀ st : I2CState,
    (PCA9685.__init__ st).2 =
      [.write 0xfe [121],
       .write 0x00 [], .read 0x00 1,
       .write 0x00 [getByte (_clearBit (st.regs 0x00) 0) 0],
       .write 0xfa [100],
       .write 0xfb [0],
       .write 0xfc [151],
       .write 0xfd [1],
       .write 0x00 [], .read 0x00 1,
       .write 0x00 [getByte (_clearBit
         (getByte (_clearBit (st.regs 0x00) 0) 0) 4) 0],
       .sleepMs 100,
       .write 0x00 [], .read 0x00 1,
       .write 0x00 [getByte (_setBit (getByte (_clearBit
         (getByte (_clearBit (st.regs 0x00) 0) 0) 4) 0) 7) 0],
       .sleepMs 100] := by
  intro st
  simp only [PCA9685.__init__, PCA9685._setRegister, PCA9685._clearBit,
    PCA9685._setBit, PCA9685._getRegister, PCA9685.REGISTERS,
    PCA9685.MODE1_BITS, PCA9685._PRESCALE, PCA9685._PULSE_START, center_eq,
    Option.getD_some]
  simp [Function.update_apply,
    show getByte 121 0 = 121 from by decide,
    show getByte 100 0 = 100 from by decide,
    show getByte 100 1 = 0 from by decide,
    show getByte 407 0 = 151 from by decide,
    show getByte 407 1 = 1 from by decide,
    show getByte 0 0 = 0 from by decide,
    show getByte 151 0 = 151 from by decide,
    show getByte 1 0 = 1 from by decide]

end RPyPCA9685

namespace RPyPCA9685

theorem getByte_zero_of_byte (v : ℤ) (h0 : 0 ≤ v) (h1 : v < 256) :
    getByte v 0 = v := by
  obtain ⟨n, rfl⟩ := Int.eq_ofNat_of_zero_le h0
  have hn : n < 256 := by exact_mod_cast h1
  rw [getByte_coe]
  have h : n / 2 ^ (8 * 0) % 2 ^ 8 = n := by
    have e0 : (2 : ℕ) ^ (8 * 0) = 1 := by norm_num
    rw [e0]
    omega
  rw [h]

theorem setBit_byte_range (v : ℤ) (h0 : 0 ≤ v) (h1 : v < 256) (o : ℕ)
    (ho : o ≤ 7) : 0 ≤ _setBit v o ∧ _setBit v o < 256 := by
  obtain ⟨n, rfl⟩ := Int.eq_ofNat_of_zero_le h0
  have hn : n < 256 := by exact_mod_cast h1
  rw [setBit_coe]
  constructor
  · positivity
  · have hp : (2 : ℕ) ^ o < 256 := by
      calc (2 : ℕ) ^ o ≤ 2 ^ 7 := Nat.pow_le_pow_right (by norm_num) ho
        _ < 256 := by norm_num
    have := Nat.or_lt_two_pow (n := 8) (by omega : n < 2 ^ 8) (by omega : 2 ^ o < 2 ^ 8)
    exact_mod_cast (by omega : ((n ||| 2 ^ o : ℕ) : ℕ) < 256)

/-- C6: `__del__` performs a read-modify-write on mode1: for any prior
byte value `b` there, the byte written back is `b` with bit 4 set and
every other bit preserved; the bus then closes. -/
theorem __del___spec : ∀ st : I2CState,
    0 ≤ st.regs 0x00 → st.regs 0x00 < 256 →
    (PCA9685.__del__ st).2 = [.write 0x00 [], .read 0x00 1,
        .write 0x00 [_setBit (st.regs 0x00) 4], .closeBus]
    ∧ testBit (_setBit (st.regs 0x00) 4) 4 ≠ 0
    ∧ (∀ i : ℕ, i ≠ 4 →
        testBit (_setBit (st.regs 0x00) 4) i = testBit (st.regs 0x00) i) := by
  intro st h0 h1
  obtain ⟨hs0, hs1⟩ := setBit_byte_range (st.regs 0x00) h0 h1 4 (by norm_num)
  refine ⟨?_, ?_, ?_⟩
  · simp only [PCA9685.__del__, PCA9685._setBit, PCA9685._getRegister,
      PCA9685._setRegister, PCA9685.REGISTERS, PCA9685.MODE1_BITS,
      Option.getD_some]
    simp [getByte_zero_of_byte _ hs0 hs1]
  · obtain ⟨n, hn⟩ := Int.eq_ofNat_of_zero_le h0
    rw [hn, setBit_coe, testBit_coe, Nat.and_two_pow]
    simp only [Nat.testBit_lor, Nat.testBit_two_pow_self, Bool.or_true]
    norm_num
  · intro i hi
    obtain ⟨n, hn⟩ := Int.eq_ofNat_of_zero_le h0
    rw [hn, setBit_coe, testBit_coe, testBit_coe, Nat.and_two_pow,
      Nat.and_two_pow]
    simp only [Nat.testBit_lor, Nat.testBit_two_pow_of_ne (Ne.symm hi),
      Bool.or_false]

/-- Witness for C6 at a chip whose mode1 byte is 0x21 (bit 4 clear). -/
theorem __del___spec_witness :
    (PCA9685.__del__ ⟨fun _ => 0x21⟩).2 = [.write 0x00 [], .read 0x00 1,
        .write 0x00 [_setBit ((0x21 : ℤ)) 4], .closeBus]
    ∧ testBit (_setBit ((0x21 : ℤ)) 4) 4 ≠ 0
    ∧ testBit (_setBit ((0x21 : ℤ)) 4) 0 = testBit ((0x21 : ℤ)) 0 :=
  ⟨(__del___spec ⟨fun _ => 0x21⟩ (by decide) (by decide)).1,
   (__del___spec ⟨fun _ => 0x21⟩ (by decide) (by decide)).2.1,
   (__del___spec ⟨fun _ => 0x21⟩ (by decide) (by decide)).2.2 0 (by decide)⟩

end RPyPCA9685

namespace RPyPCA9685

/-- Witness for C7 at `v = 0x01020304`. -/
theorem getByte_roundtrip_witness :
    getByte 0x01020304 0 + (getByte 0x01020304 1) <<< ((8 : ℕ) : ℤ)
      + (getByte 0x01020304 2) <<< ((16 : ℕ) : ℤ)
      + (getByte 0x01020304 3) <<< ((24 : ℕ) : ℤ)
      = Int.land 0x01020304 0xffffffff
    ∧ Int.land 0x01020304 0xffffffff = 0x01020304 :=
  ⟨(getByte_roundtrip 0x01020304 (by norm_num) (by norm_num)).2.1,
   (getByte_roundtrip 0x01020304 (by norm_num) (by norm_num)).2.2⟩

end RPyPCA9685
